import Mathlib

/-!
A verification development for the `file-js` pathname library (`src/file.ts`,
`src/walkSync.ts`, `src/fsp.ts`).

The TypeScript `File` class is shallowly embedded here.  The underlying Node
`fs` capability layer (`stat`, `lstat`, `readdir`, `unlink`, `rmdir`, `mkdir`,
`readlink`, `symlink`, byte copy) is modelled over an explicit filesystem
state: a finite association list from canonical absolute path strings to
entries, together with the process working directory.  Promise rejections and
synchronous exceptions are both modelled as the `Except.error` case; mutating
operations thread the filesystem state explicitly (`... × FS`), so a theorem
can state that a failing operation left the state untouched.

Path-string functions (`path.isAbsolute`, `path.basename`, `path.dirname`,
`path.normalize`, `path.join`, `String.prototype.split`) are embedded from the
Node `path.posix` implementations, on `List Char`.
-/

namespace FileJs

/-- The kind of an on-disk entry. -/
inductive FKind
  | file
  | dir
  | symlink
  | socket
deriving DecidableEq, Repr

/-- An on-disk entry: a regular file with its byte content, a directory with
the names of its children in directory-read order, a symbolic link with its
stored target string, or a socket. -/
inductive Entry
  | file (content : String)
  | dir (children : List String)
  | symlink (target : String)
  | socket
deriving DecidableEq, Repr

/-- The kind of an entry. -/
def Entry.kind : Entry → FKind
  | .file _ => .file
  | .dir _ => .dir
  | .symlink _ => .symlink
  | .socket => .socket

/-- A metadata snapshot, as returned by `fs.stat`/`fs.lstat` and queried via
`stats.isDirectory()` etc. -/
structure Stats where
  kind : FKind
deriving DecidableEq, Repr

/-- `stats.isDirectory()` -/
def Stats.isDirB (s : Stats) : Bool := s.kind == .dir

/-- `stats.isFile()` -/
def Stats.isFileB (s : Stats) : Bool := s.kind == .file

/-- `stats.isSymbolicLink()` -/
def Stats.isSymbolicLinkB (s : Stats) : Bool := s.kind == .symlink

/-- `stats.isSocket()` -/
def Stats.isSocketB (s : Stats) : Bool := s.kind == .socket

/-- Errors: the `errno`-style rejections of the `fs` layer, the
`Directory: "..." already exists.` error thrown by `copyRecursively`, a
JavaScript `TypeError` (e.g. calling a method on `null`), and exhaustion of
the recursion fuel of the embedding. -/
inductive Err
  | enoent (p : String)
  | enotdir (p : String)
  | enotempty (p : String)
  | eexist (p : String)
  | eisdir (p : String)
  | einval (p : String)
  | eloop (p : String)
  | alreadyExists (destination : String)
  | typeError
  | fuelExhausted
deriving DecidableEq, Repr

/-- The filesystem state: the process working directory (always an absolute
path) and the entries, keyed by canonical absolute path. -/
structure FS where
  cwd : String
  entries : List (String × Entry)
deriving DecidableEq, Repr

/-! ### Path-string helpers (Node `path.posix`, JavaScript strings) -/

/-- JavaScript `s.split('/')` on the character list: splitting on every
separator occurrence, keeping empty pieces, with `[[]]` for the empty
string (JS: `''.split('/') === ['']`). -/
def splitSep : List Char → List (List Char)
  | [] => [[]]
  | c :: rest =>
    if c == '/' then [] :: splitSep rest
    else
      match splitSep rest with
      | [] => [[c]]
      | s :: ss => (c :: s) :: ss

/-- Node `path.posix.isAbsolute`: nonempty and the first character is `/`. -/
def isAbsolutePosix (s : String) : Bool :=
  s.data.head? == some '/'

/-- Node `path.posix.basename` (no extension argument): drop trailing
separators, then take the final run of non-separator characters; the empty
string when nothing remains. -/
def basenamePosix (p : String) : String :=
  let r := p.data.reverse
  let r1 := r.dropWhile (· == '/')
  ⟨(r1.takeWhile (· != '/')).reverse⟩

/-- Node `path.posix.dirname`: scanning from the end (indices down to 1),
skip trailing separators, skip the base name, and cut at the separator found
there; `.` or the root when no such separator exists. -/
def dirnamePosix (p : String) : String :=
  match p.data with
  | [] => "."
  | l =>
    let hasRoot := l.head? == some '/'
    let r := l.reverse
    let r1 := r.dropWhile (· == '/')
    let r2 := r1.dropWhile (· != '/')
    let e := r2.length - 1
    if r2.isEmpty || e == 0 then (if hasRoot then "/" else ".")
    else if hasRoot && e == 1 then "//"
    else ⟨l.take e⟩

/-- Join segments back with `/` separators. -/
def sepJoin : List (List Char) → List Char
  | [] => []
  | [s] => s
  | s :: rest => s ++ '/' :: sepJoin rest

/-- The segment stack of Node's `normalizeString`: empty and `.` segments are
dropped, `..` pops a previous segment (or is kept, respectively dropped, at
the bottom depending on `allowAboveRoot`), other segments are pushed.  The
accumulator holds the processed segments in reverse. -/
def normStack (allowAboveRoot : Bool) : List (List Char) → List (List Char) → List (List Char)
  | acc, [] => acc.reverse
  | acc, seg :: rest =>
    if seg == [] || seg == ['.'] then normStack allowAboveRoot acc rest
    else if seg == ['.', '.'] then
      match acc with
      | top :: accTail =>
        if top == ['.', '.'] then normStack allowAboveRoot (seg :: acc) rest
        else normStack allowAboveRoot accTail rest
      | [] =>
        if allowAboveRoot then normStack allowAboveRoot [seg] rest
        else normStack allowAboveRoot [] rest
    else normStack allowAboveRoot (seg :: acc) rest

/-- Node `path.posix.normalize`: lexical normalization, resolving `.` and `..`
segments and collapsing repeated separators, preserving a leading root and a
trailing separator; `.` for the empty result of a relative path. -/
def normalizePosix (p : String) : String :=
  if p.data == [] then "."
  else
    let isAbs := isAbsolutePosix p
    let trailing := p.data.getLast? == some '/'
    let segs := normStack (!isAbs) [] (splitSep p.data)
    let joined := sepJoin segs
    if joined == [] then
      (if isAbs then "/" else if trailing then "./" else ".")
    else
      let r : List Char := if isAbs then '/' :: joined else joined
      ⟨if trailing then r ++ ['/'] else r⟩

/-- Node `path.posix.join` of two pieces: empty arguments are skipped, the
rest are joined with a separator and normalized; `.` when everything was
empty. -/
def joinPosix (a b : String) : String :=
  if a == "" && b == "" then "."
  else if a == "" then normalizePosix b
  else if b == "" then normalizePosix a
  else normalizePosix (a ++ "/" ++ b)

/-- The number of separator characters in a path string. -/
def countSep (p : String) : Nat := p.data.count '/'

/-! ### The filesystem capability layer (`src/fsp.ts`, promisified Node `fs`)

Every system call resolves the supplied path string against the process
working directory and normalizes it lexically, which is how keys of
`FS.entries` are canonicalized.  Calls that operate on the final path
component itself (`lstat`, `readlink`, `unlink`, `rmdir`, `mkdir`, `symlink`)
do not follow a symbolic link in the final component; `stat`, `readdir` and
the byte-copy streams do, up to a bounded number of link hops (`ELOOP`
beyond that, as in the kernel). -/

/-- The canonical key of a path string: relative paths are resolved against
the working directory, and the result is normalized. -/
def osKey (cwd p : String) : String :=
  if isAbsolutePosix p then normalizePosix p else joinPosix cwd p

/-- First entry stored under a key. -/
def lookupFS (entries : List (String × Entry)) (k : String) : Option Entry :=
  match entries with
  | [] => none
  | (k1, e) :: rest => if k1 == k then some e else lookupFS rest k

/-- Maximum number of symbolic-link hops followed by one resolution. -/
def symlinkFuel : Nat := 40

/-- Resolve symbolic links in the final component of a canonical key:
follow link targets (relative targets are resolved against the link's
directory) until a non-link entry is reached. -/
def resolveK : Nat → FS → String → Except Err String
  | 0, _, k => .error (.eloop k)
  | fuel + 1, fs, k =>
    match lookupFS fs.entries k with
    | none => .error (.enoent k)
    | some (.symlink target) =>
      resolveK fuel fs
        (if isAbsolutePosix target then normalizePosix target
         else joinPosix (dirnamePosix k) target)
    | some _ => .ok k

/-- `fsp.lstat` / the classification stat of the final component itself. -/
def lstatE (fs : FS) (p : String) : Except Err Stats :=
  match lookupFS fs.entries (osKey fs.cwd p) with
  | none => .error (.enoent (osKey fs.cwd p))
  | some e => .ok ⟨e.kind⟩

/-- `fsp.stat` / `fs.statSync`: like `lstat` but following symbolic links in
the final component, so the resulting snapshot is never of kind `symlink`. -/
def statE (fs : FS) (p : String) : Except Err Stats :=
  match resolveK symlinkFuel fs (osKey fs.cwd p) with
  | .error e => .error e
  | .ok k =>
    match lookupFS fs.entries k with
    | none => .error (.enoent k)
    | some e => .ok ⟨e.kind⟩

/-- `fs.existsSync`: whether a (link-following) stat succeeds. -/
def existsSyncE (fs : FS) (p : String) : Bool :=
  match statE fs p with
  | .ok _ => true
  | .error _ => false

/-- `fsp.readdir` / `fs.readdirSync`: the child names of a directory, in
directory-read order. -/
def readdirE (fs : FS) (p : String) : Except Err (List String) :=
  match resolveK symlinkFuel fs (osKey fs.cwd p) with
  | .error e => .error e
  | .ok k =>
    match lookupFS fs.entries k with
    | some (.dir children) => .ok children
    | some _ => .error (.enotdir k)
    | none => .error (.enoent k)

/-- Remove the entry stored under a key. -/
def removeEntry (entries : List (String × Entry)) (k : String) : List (String × Entry) :=
  entries.filter (fun pe => pe.1 != k)

/-- Replace the entry stored under a key. -/
def replaceEntry (entries : List (String × Entry)) (k : String) (e : Entry) :
    List (String × Entry) :=
  entries.map (fun pe => if pe.1 == k then (k, e) else pe)

/-- Drop the name of the entry under `k` from its parent directory's child
list. -/
def eraseChild (entries : List (String × Entry)) (k : String) : List (String × Entry) :=
  let par := dirnamePosix k
  let nm := basenamePosix k
  entries.map (fun pe =>
    if pe.1 == par then
      match pe.2 with
      | .dir children => (pe.1, .dir (children.erase nm))
      | e => (pe.1, e)
    else pe)

/-- Append the name of the entry under `k` to its parent directory's child
list. -/
def addChild (entries : List (String × Entry)) (k : String) : List (String × Entry) :=
  let par := dirnamePosix k
  let nm := basenamePosix k
  entries.map (fun pe =>
    if pe.1 == par then
      match pe.2 with
      | .dir children => (pe.1, .dir (children ++ [nm]))
      | e => (pe.1, e)
    else pe)

/-- `fsp.unlink`: remove a non-directory entry and deregister it from its
parent directory. -/
def unlinkE (fs : FS) (p : String) : Except Err FS :=
  let k := osKey fs.cwd p
  match lookupFS fs.entries k with
  | none => .error (.enoent k)
  | some (.dir _) => .error (.eisdir k)
  | some _ => .ok { fs with entries := eraseChild (removeEntry fs.entries k) k }

/-- `fsp.rmdir`: remove an empty directory and deregister it from its parent
directory; `ENOTEMPTY` when children remain. -/
def rmdirE (fs : FS) (p : String) : Except Err FS :=
  let k := osKey fs.cwd p
  match lookupFS fs.entries k with
  | none => .error (.enoent k)
  | some (.dir []) => .ok { fs with entries := eraseChild (removeEntry fs.entries k) k }
  | some (.dir _) => .error (.enotempty k)
  | some _ => .error (.enotdir k)

/-- `fsp.mkdir`: create a directory under an existing parent directory. -/
def mkdirE (fs : FS) (p : String) : Except Err FS :=
  let k := osKey fs.cwd p
  match lookupFS fs.entries k with
  | some _ => .error (.eexist k)
  | none =>
    match lookupFS fs.entries (dirnamePosix k) with
    | some (.dir _) => .ok { fs with entries := (k, .dir []) :: addChild fs.entries k }
    | some _ => .error (.enotdir (dirnamePosix k))
    | none => .error (.enoent (dirnamePosix k))

/-- `fsp.readLink`: the stored target of a symbolic link. -/
def readLinkE (fs : FS) (p : String) : Except Err String :=
  let k := osKey fs.cwd p
  match lookupFS fs.entries k with
  | none => .error (.enoent k)
  | some (.symlink target) => .ok target
  | some _ => .error (.einval k)

/-- `fsp.symLink`: create a symbolic link with the given stored target under
an existing parent directory. -/
def symLinkE (fs : FS) (target linkPath : String) : Except Err FS :=
  let k := osKey fs.cwd linkPath
  match lookupFS fs.entries k with
  | some _ => .error (.eexist k)
  | none =>
    match lookupFS fs.entries (dirnamePosix k) with
    | some (.dir _) => .ok { fs with entries := (k, .symlink target) :: addChild fs.entries k }
    | some _ => .error (.enotdir (dirnamePosix k))
    | none => .error (.enoent (dirnamePosix k))

/-- Read the byte content of a regular file, following symbolic links
(`fs.createReadStream`). -/
def readFileE (fs : FS) (p : String) : Except Err String :=
  match resolveK symlinkFuel fs (osKey fs.cwd p) with
  | .error e => .error e
  | .ok k =>
    match lookupFS fs.entries k with
    | some (.file c) => .ok c
    | some (.dir _) => .error (.eisdir k)
    | _ => .error (.enoent k)

/-- Create or overwrite a regular file with the given content
(`fs.createWriteStream`), on the cases the library exercises: an existing
regular file is truncated and rewritten, a missing final component is created
under an existing parent directory; other targets are errors. -/
def writeFileE (fs : FS) (p content : String) : Except Err FS :=
  let k := osKey fs.cwd p
  match lookupFS fs.entries k with
  | some (.file _) => .ok { fs with entries := replaceEntry fs.entries k (.file content) }
  | some _ => .error (.eisdir k)
  | none =>
    match lookupFS fs.entries (dirnamePosix k) with
    | some (.dir _) => .ok { fs with entries := (k, .file content) :: addChild fs.entries k }
    | some _ => .error (.enotdir (dirnamePosix k))
    | none => .error (.enoent (dirnamePosix k))

/-- The byte copy performed by `File.copy`:
`createReadStream(sourcePath).pipe(createWriteStream(destPath))`.  The pipe is
started but not awaited by `copyRecursively`, so stream failures never reach
the caller; a failing copy simply leaves the state unchanged. -/
def copyStreamE (fs : FS) (sourcePath destPath : String) : FS :=
  match readFileE fs sourcePath with
  | .error _ => fs
  | .ok content =>
    match writeFileE fs destPath content with
    | .error _ => fs
    | .ok fs1 => fs1

/-! ### The `File` class (`src/file.ts`) -/

/-- A `File` handle: `dir` is `process.cwd()` captured by the constructor,
`pathname` the path string exactly as supplied by the caller. -/
structure FileH where
  dir : String
  pathname : String
deriving DecidableEq, Repr

/-- `new File(pathname)` in a process whose working directory is `fs.cwd`. -/
def newFile (fs : FS) (pathname : String) : FileH := ⟨fs.cwd, pathname⟩

/-- `getName()`: the stored pathname, unchanged. -/
def getNameE (f : FileH) : String := f.pathname

/-- `getAbsolutePath()`: the pathname if already absolute, otherwise
`[this.dir, this.pathname].join(path.sep)`. -/
def getAbsolutePathE (f : FileH) : String :=
  if isAbsolutePosix f.pathname then f.pathname
  else f.dir ++ "/" ++ f.pathname

/-- `getCanonicalPath()`: `path.normalize(this.getAbsolutePath())`. -/
def getCanonicalPathE (f : FileH) : String :=
  normalizePosix (getAbsolutePathE f)

/-- `getStatsSync()`: `fs.statSync(this.pathname)`. -/
def getStatsSyncE (f : FileH) (fs : FS) : Except Err Stats :=
  statE fs f.pathname

/-- `getStats()`: `fsp.stat(this.pathname)`. -/
def getStatsE (f : FileH) (fs : FS) : Except Err Stats :=
  statE fs f.pathname

/-- `isDirectorySync()`: `this.getStatsSync().isDirectory()`. -/
def isDirectorySyncE (f : FileH) (fs : FS) : Except Err Bool :=
  match getStatsSyncE f fs with
  | .error e => .error e
  | .ok st => .ok st.isDirB

/-- `checkAsyncStats(type)`: fetch the async stats and apply one of the
`Stats` predicate methods to them. -/
def checkAsyncStatsE (f : FileH) (sel : Stats → Bool) (fs : FS) : Except Err Bool :=
  match getStatsE f fs with
  | .error e => .error e
  | .ok st => .ok (sel st)

/-- `isDirectory()`: `this.checkAsyncStats('isDirectory')`. -/
def isDirectoryE (f : FileH) (fs : FS) : Except Err Bool :=
  checkAsyncStatsE f Stats.isDirB fs

/-- The character list has a position that is at a segment start (the string
start or just after a `/`), holds a `.`, and is followed by a character that
is neither `/` nor `.`: the embedding of the regular expression
`(^|\/)\.[^\/\.]` used by `isHiddenDirectory`.  The first argument records
whether the current position is a segment start. -/
def hiddenScan : Bool → List Char → Bool
  | _, [] => false
  | segStart, c :: rest =>
    (segStart && c == '.' && (match rest with
      | [] => false
      | c2 :: _ => c2 != '/' && c2 != '.'))
    || hiddenScan (c == '/') rest

/-- `isHiddenFile()`: `/^\./.test(path.basename(this.pathname))`. -/
def isHiddenFileB (f : FileH) : Bool :=
  (basenamePosix f.pathname).data.head? == some '.'

/-- `isHiddenDirectory()`: `/(^|\/)\.[^\/\.]/g.test(this.pathname)`. -/
def isHiddenDirectoryB (f : FileH) : Bool :=
  hiddenScan true f.pathname.data

/-- `isHiddenSync()`: the file rule when not a directory, the directory rule
otherwise. -/
def isHiddenSyncE (f : FileH) (fs : FS) : Except Err Bool :=
  match isDirectorySyncE f fs with
  | .error e => .error e
  | .ok false => .ok (isHiddenFileB f)
  | .ok true => .ok (isHiddenDirectoryB f)

/-- `isHidden()`: as `isHiddenSync`, with the asynchronous directory check. -/
def isHiddenE (f : FileH) (fs : FS) : Except Err Bool :=
  match isDirectoryE f fs with
  | .error e => .error e
  | .ok false => .ok (isHiddenFileB f)
  | .ok true => .ok (isHiddenDirectoryB f)

/-- `getListSync()`: for a directory, the child names each joined onto the
pathname; the JavaScript `null` (modelled as `none`) otherwise. -/
def getListSyncE (f : FileH) (fs : FS) : Except Err (Option (List String)) :=
  match isDirectorySyncE f fs with
  | .error e => .error e
  | .ok true =>
    match readdirE fs f.pathname with
    | .error e => .error e
    | .ok files => .ok (some (files.map (fun file => joinPosix f.pathname file)))
  | .ok false => .ok none

/-- `getFiles(glob?)`: the empty list when not a directory; otherwise child
handles built from the joined child paths, filtered by `isMatch` when a glob
is supplied.  `mf` is the external minimatch capability (glob-pattern
compilation is outside this core), `mf pattern pathname` standing for
`new Minimatch(pattern, {matchBase:true}).match(pathname)`. -/
def getFilesE (mf : String → String → Bool) (f : FileH) (glob : Option String)
    (fs : FS) : Except Err (List FileH) :=
  match isDirectoryE f fs with
  | .error e => .error e
  | .ok false => .ok []
  | .ok true =>
    match readdirE fs f.pathname with
    | .error e => .error e
    | .ok files =>
      let results := (files.map (fun file => joinPosix f.pathname file)).map
        (fun pathname => newFile fs pathname)
      if results.length == 0 then .ok []
      else
        match glob with
        | some g => .ok (results.filter (fun file => mf g file.pathname))
        | none => .ok results

/-- `getList(glob?)`: the names of `getFiles(glob)` when nonempty, the empty
list otherwise. -/
def getListE (mf : String → String → Bool) (f : FileH) (glob : Option String)
    (fs : FS) : Except Err (List String) :=
  match getFilesE mf f glob fs with
  | .error e => .error e
  | .ok files =>
    if files.length > 0 then .ok (files.map getNameE) else .ok []

/-- `getFilesSync(glob?)`: for a directory, handles built from
`getListSync()`, filtered by `isMatch` when a glob is supplied; the
JavaScript `null` otherwise.  (A `null` from the inner `getListSync` would
make the `.map` call throw a `TypeError`; that branch is unreachable for a
stable state.) -/
def getFilesSyncE (mf : String → String → Bool) (f : FileH) (glob : Option String)
    (fs : FS) : Except Err (Option (List FileH)) :=
  match isDirectorySyncE f fs with
  | .error e => .error e
  | .ok false => .ok none
  | .ok true =>
    match getListSyncE f fs with
    | .error e => .error e
    | .ok none => .error .typeError
    | .ok (some names) =>
      let files := names.map (fun pathname => newFile fs pathname)
      match glob with
      | some g => .ok (some (files.filter (fun file => mf g file.pathname)))
      | none => .ok (some files)

/-- `depth(pathname)`: `pathname.split(path.sep).length - 1`. -/
def depthE (pathname : String) : Nat :=
  (splitSep pathname.data).length - 1

/-- `getDepthSync()`: the depth of the pathname itself for a directory, of
`path.dirname(this.pathname)` otherwise. -/
def getDepthSyncE (f : FileH) (fs : FS) : Except Err Nat :=
  match isDirectorySyncE f fs with
  | .error e => .error e
  | .ok false => .ok (depthE (dirnamePosix f.pathname))
  | .ok true => .ok (depthE f.pathname)

/-! ### Recursive delete (`File.deleteRecursively`)

The source guards the body with `if (this.exists())` — but `exists()` is an
`async` method and the call is not awaited, so the condition tests the
truthiness of the returned `Promise` object itself, and every object is
truthy in JavaScript.  The body therefore always runs. -/

/-- The truthiness of the un-awaited `Promise` returned by `this.exists()`:
always `true`, whatever the path. -/
def jsPromiseTruthy : Bool := true

/-- The `for (const file of files)` loop of `deleteRecursively`, the
recursive call abstracted as `recur`: build `` `${dirPath}/${file}` ``,
classify it with two `lstat` calls, recurse into a directory only when it has
children, unlink a regular file, and move on to the next child.  A rejection
aborts the loop with the state as the failing step left it. -/
def deleteChildrenGo (recur : String → FS → Except Err Unit × FS) (dirPath : String) :
    List String → FS → Except Err Unit × FS
  | [], fs => (.ok (), fs)
  | file :: rest, fs =>
    let curPath := dirPath ++ "/" ++ file
    match lstatE fs curPath with
    | .error e => (.error e, fs)
    | .ok stats1 =>
      match lstatE fs curPath with
      | .error e => (.error e, fs)
      | .ok stats2 =>
        let isDirectory := stats1.isDirB
        let isFile := stats2.isFileB
        let afterDir : Except Err Unit × FS :=
          if isDirectory then
            match readdirE fs curPath with
            | .error e => (.error e, fs)
            | .ok names =>
              if names.length > 0 then recur curPath fs
              else (.ok (), fs)
          else (.ok (), fs)
        match afterDir with
        | (.error e, fs1) => (.error e, fs1)
        | (.ok _, fs1) =>
          let afterFile : Except Err Unit × FS :=
            if isFile then
              match unlinkE fs1 curPath with
              | .error e => (.error e, fs1)
              | .ok fs2 => (.ok (), fs2)
            else (.ok (), fs1)
          match afterFile with
          | (.error e, fs2) => (.error e, fs2)
          | (.ok _, fs2) => deleteChildrenGo recur dirPath rest fs2

/-- `deleteRecursively(dirPath = this.pathname)`, with explicit recursion
fuel: list the children, process each, then remove the directory itself.  The
state is threaded through so that a failure reports the filesystem exactly as
it was left. -/
def deleteRecursivelyE : Nat → FileH → String → FS → Except Err Unit × FS
  | 0, _, _, fs => (.error .fuelExhausted, fs)
  | fuel + 1, self, dirPath, fs =>
    if jsPromiseTruthy then
      match readdirE fs dirPath with
      | .error e => (.error e, fs)
      | .ok files =>
        match deleteChildrenGo
            (fun curPath fs1 => deleteRecursivelyE fuel self curPath fs1)
            dirPath files fs with
        | (.error e, fs1) => (.error e, fs1)
        | (.ok _, fs1) =>
          match rmdirE fs1 dirPath with
          | .error e => (.error e, fs1)
          | .ok fs2 => (.ok (), fs2)
    else (.ok (), fs)

/-! ### Recursive copy (`File.copyRecursively`) -/

/-- The options bag of `copyRecursively`. -/
structure CopyOpts where
  overwrite : Bool := false
  source : Option String := none
deriving DecidableEq, Repr

/-- The `for (const i of files.keys())` loop of `copyRecursively`, the
recursive call abstracted as `recur`: classify each child by `fsp.stat` of
its source path (which follows symbolic links), recurse for a directory,
recreate a symbolic link for a symbolic link, and otherwise start a byte-copy
stream (not awaited). -/
def copyChildrenGo (recur : String → CopyOpts → FS → Except Err Unit × FS)
    (source destination : String) (overwrite : Bool) :
    List String → FS → Except Err Unit × FS
  | [], fs => (.ok (), fs)
  | file :: rest, fs =>
    match statE fs (joinPosix source file) with
    | .error e => (.error e, fs)
    | .ok current =>
      let step : Except Err Unit × FS :=
        if current.isDirB then
          let newSource := joinPosix source file
          let newDestination := joinPosix destination file
          recur newDestination ⟨overwrite, some newSource⟩ fs
        else if current.isSymbolicLinkB then
          match readLinkE fs (joinPosix source file) with
          | .error e => (.error e, fs)
          | .ok symlink =>
            match symLinkE fs symlink (joinPosix destination file) with
            | .error e => (.error e, fs)
            | .ok fs1 => (.ok (), fs1)
        else
          (.ok (), copyStreamE fs (joinPosix source file) (joinPosix destination file))
      match step with
      | (.error e, fs1) => (.error e, fs1)
      | (.ok _, fs1) => copyChildrenGo recur source destination overwrite rest fs1

/-- `copyRecursively(destination, opts = {overwrite:false})`: default the
source to the handle's pathname (a missing or empty `opts.source` is falsy),
fail when the destination exists without `overwrite`, delete it first when it
exists with `overwrite`, create the destination directory, then copy each
child of the source. -/
def copyRecursivelyE : Nat → FileH → String → CopyOpts → FS → Except Err Unit × FS
  | 0, _, _, _, fs => (.error .fuelExhausted, fs)
  | fuel + 1, self, destination, opts, fs =>
    let source := match opts.source with
      | none => self.pathname
      | some s => if s == "" then self.pathname else s
    let directoryExists := existsSyncE fs destination
    if directoryExists && !opts.overwrite then
      (.error (.alreadyExists destination), fs)
    else
      let afterDelete : Except Err Unit × FS :=
        if directoryExists && opts.overwrite then
          deleteRecursivelyE fuel self destination fs
        else (.ok (), fs)
      match afterDelete with
      | (.error e, fs1) => (.error e, fs1)
      | (.ok _, fs1) =>
        match mkdirE fs1 destination with
        | .error e => (.error e, fs1)
        | .ok fs2 =>
          match readdirE fs2 source with
          | .error e => (.error e, fs2)
          | .ok files =>
            copyChildrenGo
              (fun newDestination newOpts fs3 =>
                copyRecursivelyE fuel self newDestination newOpts fs3)
              source destination opts.overwrite files fs2

/-! ### Depth-first conditional walk (`src/walkSync.ts`) -/

/-- `String(file)` for a `File` instance: the class declares no `toString`,
so the default `Object.prototype.toString` produces this same string for
every handle. -/
def toStringJS : FileH → String := fun _ => "[object Object]"

/-- JavaScript string `<`: lexicographic comparison by code unit. -/
def jsStrLtB : List Char → List Char → Bool
  | [], [] => false
  | [], _ :: _ => true
  | _ :: _, [] => false
  | c1 :: r1, c2 :: r2 =>
    if c1.val < c2.val then true
    else if c2.val < c1.val then false
    else jsStrLtB r1 r2

/-- Stable insertion: the element goes before the first element whose key is
not strictly below its own. -/
def insertByKey (key : FileH → String) (a : FileH) : List FileH → List FileH
  | [] => [a]
  | b :: l =>
    if jsStrLtB (key b).data (key a).data then b :: insertByKey key a l
    else a :: b :: l

/-- Stable sort by key: earlier elements are inserted in front of later
elements with equal keys. -/
def sortByKey (key : FileH → String) : List FileH → List FileH
  | [] => []
  | x :: xs => insertByKey key x (sortByKey key xs)

/-- `names.sort()` in `listDir`: `Array.prototype.sort` with no comparator, a
stable sort (ES2019) comparing the elements' string forms — which, the
elements being `File` objects, are all `"[object Object]"`. -/
def jsDefaultSort (files : List FileH) : List FileH :=
  sortByKey toStringJS files

/-- `listDir(f)`: `f.getFilesSync()` (no glob — the glob capability passed to
the embedding is never consulted) followed by `.sort()`; a `null` result
would make `.sort()` throw a `TypeError`. -/
def listDirE (f : FileH) (fs : FS) : Except Err (List FileH) :=
  match getFilesSyncE (fun _ _ => false) f none fs with
  | .error e => .error e
  | .ok none => .error .typeError
  | .ok (some files) => .ok (jsDefaultSort files)

/-- The `for (const dir of dirNames)` loop of `walkSync`, the recursive call
abstracted as `recur`: walk each child in turn, concatenating the visit
sequences. -/
def walkListGo (recur : FileH → Except Err (List String)) :
    List FileH → Except Err (List String)
  | [] => .ok []
  | d :: rest =>
    match recur d with
    | .error e => .error e
    | .ok vs =>
      match walkListGo recur rest with
      | .error e => .error e
      | .ok vs2 => .ok (vs ++ vs2)

/-- `walkSync(path, fileVisitor)`: the sequence of nodes the visitor is
invoked on, in visiting order.  A non-directory is visited and is a leaf; a
directory is visited, and its children (as produced by `listDir`) are walked
only when the visitor returned `true` for it. -/
def walkSyncE : Nat → FileH → (FileH → Bool) → FS → Except Err (List String)
  | 0, _, _, _ => .error .fuelExhausted
  | fuel + 1, f, pred, fs =>
    match isDirectorySyncE f fs with
    | .error e => .error e
    | .ok false => .ok [f.pathname]
    | .ok true =>
      let cont := pred f
      if !cont then .ok [f.pathname]
      else
        match listDirE f fs with
        | .error e => .error e
        | .ok children =>
          match walkListGo (fun d => walkSyncE fuel d pred fs) children with
          | .error e => .error e
          | .ok visits => .ok (f.pathname :: visits)

/-! ### Spec-side formulations

These definitions follow the specification's words, to be compared with the
definitions embedded from the source. -/

/-- The spec's per-segment hidden rule: the segment begins with `.` followed
by a character that is neither `.` nor a separator. -/
def segHidden : List Char → Bool
  | [] => false
  | c1 :: rest =>
    c1 == '.' && (match rest with
      | [] => false
      | c2 :: _ => c2 != '/' && c2 != '.')

/-- The directory rule exactly as the claim states it: some path segment
*other than the last* satisfies the per-segment hidden rule. -/
def specHiddenDirExceptLast (p : String) : Bool :=
  ((splitSep p.data).dropLast).any segHidden

/-- The depth the claim describes for `getDepthSync`: the number of path
separators in the directory portion of the canonical path — the canonical
path itself for a directory, its parent for anything else. -/
def specDepthOfCanonical (f : FileH) (fs : FS) : Except Err Nat :=
  match isDirectorySyncE f fs with
  | .error e => .error e
  | .ok true => .ok (countSep (getCanonicalPathE f))
  | .ok false => .ok (countSep (dirnamePosix (getCanonicalPathE f)))

/-! ### General lemmas about the embedded helpers -/

theorem splitSep_ne_nil (l : List Char) : splitSep l ≠ [] := by
  cases l with
  | nil => simp [splitSep]
  | cons c rest =>
    simp only [splitSep]
    split
    · simp
    · split <;> simp

theorem splitSep_length (l : List Char) : (splitSep l).length = l.count '/' + 1 := by
  induction l with
  | nil => simp [splitSep]
  | cons c rest ih =>
    by_cases hc : c = '/'
    · subst hc
      simp [splitSep, List.count_cons, ih]
    · have hcb : (c == '/') = false := by simp [hc]
      rcases hs : splitSep rest with _ | ⟨s, ss⟩
      · exact absurd hs (splitSep_ne_nil rest)
      · rw [hs] at ih
        simp only [splitSep, hcb, Bool.false_eq_true, if_false, hs,
          List.length_cons, List.count_cons]
        simp only [List.length_cons] at ih
        omega

/-- `depth` counts exactly the separator characters of its argument. -/
theorem depthE_eq_countSep (p : String) : depthE p = countSep p := by
  simp [depthE, countSep, splitSep_length]

/-- The spec's per-segment rule, evaluated on a cons cell whose tail is the
first segment of `rest`, matches the scan's look-ahead on `rest` itself. -/
theorem segHidden_head (c : Char) (rest : List Char) (s : List Char) (ss : List (List Char))
    (hs : splitSep rest = s :: ss) :
    segHidden (c :: s) = (c == '.' && (match rest with
      | [] => false
      | c2 :: _ => c2 != '/' && c2 != '.')) := by
  cases rest with
  | nil =>
    simp [splitSep] at hs
    obtain ⟨h1, h2⟩ := hs
    subst h1
    simp [segHidden]
  | cons c2 r2 =>
    by_cases h2 : c2 = '/'
    · subst h2
      simp [splitSep] at hs
      obtain ⟨h1, _⟩ := hs
      subst h1
      simp [segHidden]
    · have h2b : (c2 == '/') = false := by simp [h2]
      rcases h3 : splitSep r2 with _ | ⟨s2, ss2⟩
      · exact absurd h3 (splitSep_ne_nil r2)
      · simp only [splitSep, h2b, Bool.false_eq_true, if_false, h3] at hs
        injection hs with hs1 hs2
        subst hs1
        simp [segHidden, h2b]

/-- The position scan embedded from the `isHiddenDirectory` regular
expression coincides with "some segment satisfies the per-segment hidden
rule" — over all segments when scanning from a segment start, over the
segments after the first separator otherwise. -/
theorem hiddenScan_splitSep (l : List Char) :
    hiddenScan true l = (splitSep l).any segHidden ∧
    hiddenScan false l = ((splitSep l).drop 1).any segHidden := by
  induction l with
  | nil => exact ⟨rfl, rfl⟩
  | cons c rest ih =>
    obtain ⟨ih1, ih2⟩ := ih
    by_cases hc : c = '/'
    · subst hc
      constructor
      · simp [hiddenScan, splitSep, ih1, segHidden]
      · simp [hiddenScan, splitSep, ih1]
    · have hcb : (c == '/') = false := by simp [hc]
      rcases hs : splitSep rest with _ | ⟨s, ss⟩
      · exact absurd hs (splitSep_ne_nil rest)
      constructor
      · simp only [hiddenScan, splitSep, hcb, Bool.false_eq_true, if_false, hs,
          List.any_cons, ih2, List.drop_one, List.tail_cons]
        rw [segHidden_head c rest s ss hs]
        cases rest <;> rfl
      · simp only [hiddenScan, splitSep, hcb, Bool.false_eq_true, if_false, hs,
          List.drop_one, List.tail_cons, ih2, Bool.false_and, Bool.false_or]

/-- `isHiddenDirectory` holds exactly when some path segment — the last one
included — satisfies the per-segment hidden rule. -/
theorem isHiddenDirectoryB_eq_any (f : FileH) :
    isHiddenDirectoryB f = (splitSep f.pathname.data).any segHidden :=
  (hiddenScan_splitSep f.pathname.data).1

/-- JavaScript string `<` is irreflexive. -/
theorem jsStrLtB_irrefl (l : List Char) : jsStrLtB l l = false := by
  induction l with
  | nil => rfl
  | cons c r ih => simp [jsStrLtB, ih]

/-- Inserting into a list all of whose keys equal the inserted element's key
puts the element in front. -/
theorem insertByKey_const (a : FileH) (l : List FileH) :
    insertByKey toStringJS a l = a :: l := by
  cases l with
  | nil => rfl
  | cons b l => simp [insertByKey, toStringJS, jsStrLtB_irrefl]

/-- The comparator-less `Array.prototype.sort` of `listDir` is the identity:
every `File` stringifies to the same `"[object Object]"`, so the stable sort
never reorders. -/
theorem jsDefaultSort_id (l : List FileH) : jsDefaultSort l = l := by
  induction l with
  | nil => rfl
  | cons x xs ih =>
    simp only [jsDefaultSort, sortByKey] at *
    rw [ih, insertByKey_const]

/-- Prepending an absolute working directory and a separator yields an
absolute path. -/
theorem isAbsolutePosix_append (cwd p : String) (h : isAbsolutePosix cwd = true) :
    isAbsolutePosix (cwd ++ "/" ++ p) = true := by
  rcases cwd with ⟨l⟩
  cases l with
  | nil => simp [isAbsolutePosix] at h
  | cons c t =>
    simp only [isAbsolutePosix, List.head?] at h
    have hc : c = '/' := by simpa using h
    subst hc
    simp only [isAbsolutePosix, String.data_append]
    rfl

/-! ### Concrete filesystem fixtures for the claims -/

/-- A pre-existing, non-empty copy destination `/d` next to an empty source
`/s`. -/
def fsC1 : FS :=
  ⟨"/", [("/", .dir ["s", "d"]), ("/s", .dir []),
         ("/d", .dir ["old.txt"]), ("/d/old.txt", .file "old")]⟩

/-- A filesystem in which `/gone` does not exist. -/
def fsC2 : FS := ⟨"/", [("/", .dir [])]⟩

/-- A source directory `/s` holding a regular file `f` and a symbolic link
`ln` to it; no `/d` yet. -/
def fsC3 : FS :=
  ⟨"/", [("/", .dir ["s"]), ("/s", .dir ["f", "ln"]),
         ("/s/f", .file "data"), ("/s/ln", .symlink "/s/f")]⟩

/-- A directory `/r` whose only child `/r/e` is an empty directory. -/
def fsC4 : FS :=
  ⟨"/", [("/", .dir ["r"]), ("/r", .dir ["e"]), ("/r/e", .dir [])]⟩

/-- A directory `/tmp/.b` whose final segment — and no other — is a
dot-segment. -/
def fsC5 : FS :=
  ⟨"/", [("/", .dir ["tmp"]), ("/tmp", .dir [".b"]), ("/tmp/.b", .dir [])]⟩

/-- A directory `/dir` with two children, and a regular file `/f.txt`. -/
def fsC6 : FS :=
  ⟨"/", [("/", .dir ["dir", "f.txt"]), ("/dir", .dir ["a.json", "b.txt"]),
         ("/dir/a.json", .file "a"), ("/dir/b.txt", .file "b"),
         ("/f.txt", .file "f")]⟩

/-- A process working in `/x`, with the directory `a/b` relative to it. -/
def fsC7 : FS :=
  ⟨"/x", [("/", .dir ["x"]), ("/x", .dir ["a"]), ("/x/a", .dir ["b"]),
          ("/x/a/b", .dir [])]⟩

/-- A directory `/r` whose directory-read order is `b` before `a`. -/
def fsC8 : FS :=
  ⟨"/", [("/", .dir ["r"]), ("/r", .dir ["b", "a"]),
         ("/r/b", .file "1"), ("/r/a", .file "2")]⟩

/-- A directory `/dir` with two children; `/gone` does not exist. -/
def fsC10 : FS :=
  ⟨"/", [("/", .dir ["dir"]), ("/dir", .dir ["a.json", "b.txt"]),
         ("/dir/a.json", .file "a"), ("/dir/b.txt", .file "b")]⟩

/-! ### The claims -/

/-- C1: for every destination that already exists before the call,
`copyRecursively` invoked with `overwrite:false` raises the
"already exists" error and performs no mutation — the resulting state is
exactly the input state, so the destination's prior contents are untouched
and nothing is copied. -/
theorem claimC1_copy_no_overwrite_rejects_unchanged (fuel : Nat) (self : FileH)
    (destination : String) (opts : CopyOpts) (fs : FS)
    (hex : existsSyncE fs destination = true) (hov : opts.overwrite = false) :
    copyRecursivelyE (fuel + 1) self destination opts fs =
      (.error (.alreadyExists destination), fs) := by
  simp [copyRecursivelyE, hex, hov]

theorem claimC1_witness :
    existsSyncE fsC1 "/d" = true ∧
    (⟨false, none⟩ : CopyOpts).overwrite = false ∧
    copyRecursivelyE 1 ⟨"/", "/s"⟩ "/d" ⟨false, none⟩ fsC1 =
      (.error (.alreadyExists "/d"), fsC1) :=
  ⟨rfl, rfl,
    claimC1_copy_no_overwrite_rejects_unchanged 0 ⟨"/", "/s"⟩ "/d" ⟨false, none⟩ fsC1 rfl rfl⟩

/-- C2: contrary to the claim, `deleteRecursively` on a root that does not
exist is not a no-op: the un-awaited `this.exists()` promise is truthy, the
body runs, and the `readdir` of the absent root rejects with `ENOENT`
(leaving the state unchanged). -/
theorem claimC2_delete_missing_root_rejects :
    deleteRecursivelyE 5 ⟨"/", "/gone"⟩ "/gone" fsC2 =
      (.error (.enoent "/gone"), fsC2) := rfl

/-- C3: contrary to the claim, children are classified by `fsp.stat`, which
follows symbolic links, so `current.isSymbolicLink()` is never true: the
source symbolic link `/s/ln` (targeting `/s/f`) is dereferenced and copied to
the destination as a regular file holding the target's bytes, not recreated
as a link. -/
theorem claimC3_symlink_copied_as_content :
    lookupFS fsC3.entries "/s/ln" = some (.symlink "/s/f") ∧
    (copyRecursivelyE 9 ⟨"/", "/s"⟩ "/d" ⟨false, none⟩ fsC3).1 = .ok () ∧
    lookupFS (copyRecursivelyE 9 ⟨"/", "/s"⟩ "/d" ⟨false, none⟩ fsC3).2.entries "/d/ln" =
      some (.file "data") :=
  ⟨rfl, rfl, rfl⟩

/-- C4: contrary to the claim, a tree containing an empty subdirectory is not
deleted: the empty child `/r/e` is neither recursed into (it has no children)
nor unlinked (it is not a file), so the final `rmdir` of the root fails with
`ENOTEMPTY`, the state is unchanged, and the root still exists. -/
theorem claimC4_empty_subdir_breaks_delete :
    deleteRecursivelyE 9 ⟨"/", "/r"⟩ "/r" fsC4 = (.error (.enotempty "/r"), fsC4) ∧
    existsSyncE fsC4 "/r" = true :=
  ⟨rfl, rfl⟩

/-- C5 counterexample: `/tmp/.b` is a directory whose only dot-segment is the
final one, so the claim's directory rule ("some segment other than the last")
says it is not hidden — but the code reports it hidden. -/
theorem claimC5_counterexample :
    isHiddenSyncE ⟨"/", "/tmp/.b"⟩ fsC5 = .ok true ∧
    specHiddenDirExceptLast "/tmp/.b" = false :=
  ⟨rfl, rfl⟩

/-- C5 (amended): for every path on which the stat succeeds, if the path is
not a directory it is hidden iff the final segment's name begins with `.`,
and if it is a directory it is hidden iff some path segment — the last one
included — begins with `.` followed by a character that is neither `.` nor a
separator; `isHidden` agrees with `isHiddenSync`. -/
theorem claimC5_hidden_rules (f : FileH) (fs : FS) (st : Stats)
    (h : statE fs f.pathname = .ok st) :
    isHiddenSyncE f fs =
      .ok (if st.isDirB then (splitSep f.pathname.data).any segHidden
           else ((basenamePosix f.pathname).data.head? == some '.')) ∧
    isHiddenE f fs =
      .ok (if st.isDirB then (splitSep f.pathname.data).any segHidden
           else ((basenamePosix f.pathname).data.head? == some '.')) := by
  have hd : isDirectorySyncE f fs = .ok st.isDirB := by
    simp [isDirectorySyncE, getStatsSyncE, h]
  have hd2 : isDirectoryE f fs = .ok st.isDirB := by
    simp [isDirectoryE, checkAsyncStatsE, getStatsE, h]
  cases hb : st.isDirB
  · constructor <;>
      simp [isHiddenSyncE, isHiddenE, hd, hd2, hb, isHiddenFileB]
  · constructor <;>
      simp [isHiddenSyncE, isHiddenE, hd, hd2, hb, isHiddenDirectoryB_eq_any]

theorem claimC5_hidden_rules_witness :
    statE fsC5 "/tmp/.b" = .ok ⟨.dir⟩ ∧
    (isHiddenSyncE ⟨"/", "/tmp/.b"⟩ fsC5 =
      .ok (if (⟨.dir⟩ : Stats).isDirB then (splitSep "/tmp/.b".data).any segHidden
           else ((basenamePosix "/tmp/.b").data.head? == some '.')) ∧
     isHiddenE ⟨"/", "/tmp/.b"⟩ fsC5 =
      .ok (if (⟨.dir⟩ : Stats).isDirB then (splitSep "/tmp/.b".data).any segHidden
           else ((basenamePosix "/tmp/.b").data.head? == some '.'))) :=
  ⟨rfl, claimC5_hidden_rules ⟨"/", "/tmp/.b"⟩ fsC5 ⟨.dir⟩ rfl⟩

/-- C6: for every path on which the stat succeeds: when it is not a
directory, `getListSync` returns the null value while `getList` resolves to
the empty list; when it is a directory, both list exactly the immediate
children, each as the child name joined onto the pathname. -/
theorem claimC6_listing_null_vs_empty (mf : String → String → Bool) (f : FileH)
    (fs : FS) (st : Stats) (h : statE fs f.pathname = .ok st) :
    (st.isDirB = false →
      getListSyncE f fs = .ok none ∧ getListE mf f none fs = .ok []) ∧
    (st.isDirB = true → ∀ names, readdirE fs f.pathname = .ok names →
      getListSyncE f fs = .ok (some (names.map (fun n => joinPosix f.pathname n))) ∧
      getListE mf f none fs = .ok (names.map (fun n => joinPosix f.pathname n))) := by
  have hd : isDirectorySyncE f fs = .ok st.isDirB := by
    simp [isDirectorySyncE, getStatsSyncE, h]
  have hd2 : isDirectoryE f fs = .ok st.isDirB := by
    simp [isDirectoryE, checkAsyncStatsE, getStatsE, h]
  constructor
  · intro hb
    constructor
    · simp [getListSyncE, hd, hb]
    · simp [getListE, getFilesE, hd2, hb]
  · intro hb names hr
    constructor
    · simp [getListSyncE, hd, hb, hr]
    · cases names with
      | nil => simp [getListE, getFilesE, hd2, hb, hr]
      | cons n ns =>
        simp [getListE, getFilesE, hd2, hb, hr, newFile, getNameE, List.map_map,
          Function.comp]

theorem claimC6_witness :
    statE fsC6 "/f.txt" = .ok ⟨.file⟩ ∧
    statE fsC6 "/dir" = .ok ⟨.dir⟩ ∧
    readdirE fsC6 "/dir" = .ok ["a.json", "b.txt"] ∧
    (getListSyncE ⟨"/", "/f.txt"⟩ fsC6 = .ok none ∧
      getListE (fun _ _ => false) ⟨"/", "/f.txt"⟩ none fsC6 = .ok []) ∧
    (getListSyncE ⟨"/", "/dir"⟩ fsC6 =
      .ok (some (["a.json", "b.txt"].map (fun n => joinPosix "/dir" n))) ∧
     getListE (fun _ _ => false) ⟨"/", "/dir"⟩ none fsC6 =
      .ok (["a.json", "b.txt"].map (fun n => joinPosix "/dir" n))) :=
  ⟨rfl, rfl, rfl,
    (claimC6_listing_null_vs_empty (fun _ _ => false) ⟨"/", "/f.txt"⟩ fsC6 ⟨.file⟩ rfl).1 rfl,
    (claimC6_listing_null_vs_empty (fun _ _ => false) ⟨"/", "/dir"⟩ fsC6 ⟨.dir⟩ rfl).2 rfl
      ["a.json", "b.txt"] rfl⟩

/-- C7 counterexample: for the directory handle built in `/x` from the
relative pathname `a/b`, the code returns 1 — the separator count of the
stored pathname — while the separator count of the canonical path `/x/a/b`
is 3, so `getDepthSync` is not a function of the canonical path as the claim
states. -/
theorem claimC7_counterexample :
    getDepthSyncE ⟨"/x", "a/b"⟩ fsC7 = .ok 1 ∧
    specDepthOfCanonical ⟨"/x", "a/b"⟩ fsC7 = .ok 3 ∧
    getDepthSyncE ⟨"/x", "a/b"⟩ fsC7 ≠ specDepthOfCanonical ⟨"/x", "a/b"⟩ fsC7 :=
  ⟨rfl, rfl, fun hEq =>
    absurd (Except.ok.inj (show (Except.ok 1 : Except Err Nat) = .ok 3 from hEq))
      (by decide)⟩

/-- C7 (amended): for every path on which the stat succeeds, `getDepthSync`
returns the count of path separators in the directory portion of the
*stored* pathname: the pathname itself when it is a directory, its parent
(`path.dirname`) otherwise. -/
theorem claimC7_depth_of_stored_pathname (f : FileH) (fs : FS) (st : Stats)
    (h : statE fs f.pathname = .ok st) :
    getDepthSyncE f fs =
      .ok (countSep (if st.isDirB then f.pathname else dirnamePosix f.pathname)) := by
  have hd : isDirectorySyncE f fs = .ok st.isDirB := by
    simp [isDirectorySyncE, getStatsSyncE, h]
  cases hb : st.isDirB <;> simp [getDepthSyncE, hd, hb, depthE_eq_countSep]

theorem claimC7_depth_witness :
    statE fsC7 "a/b" = .ok ⟨.dir⟩ ∧
    getDepthSyncE ⟨"/x", "a/b"⟩ fsC7 =
      .ok (countSep (if (⟨.dir⟩ : Stats).isDirB then "a/b" else dirnamePosix "a/b")) :=
  ⟨rfl, claimC7_depth_of_stored_pathname ⟨"/x", "a/b"⟩ fsC7 ⟨.dir⟩ rfl⟩

/-- C8: contrary to the claim, the children of a directory are not walked in
lexicographic path order: `listDir` sorts the `File` objects with no
comparator, every one stringifies to `"[object Object]"`, and the stable sort
(shown the identity on every list) leaves them in directory-read order — so
the walk of `/r` (read order `b`, `a`) visits `/r/b` before `/r/a`. -/
theorem claimC8_walk_in_readdir_order :
    (∀ l : List FileH, jsDefaultSort l = l) ∧
    walkSyncE 3 ⟨"/", "/r"⟩ (fun _ => true) fsC8 = .ok ["/r", "/r/b", "/r/a"] ∧
    walkSyncE 3 ⟨"/", "/r"⟩ (fun _ => true) fsC8 ≠ .ok ["/r", "/r/a", "/r/b"] :=
  ⟨jsDefaultSort_id, rfl, fun hEq =>
    absurd
      (Except.ok.inj
        (show (Except.ok ["/r", "/r/b", "/r/a"] : Except Err (List String)) =
          .ok ["/r", "/r/a", "/r/b"] from hEq))
      (by decide)⟩

/-- C9: `getAbsolutePath` is idempotent whenever the captured working
directory is absolute (as `process.cwd()` always is): a handle built from the
output yields the same string, the output being the pathname itself when
already absolute and the separator-join of the working directory and the
pathname otherwise. -/
theorem claimC9_absolute_path_idempotent (cwd cwd2 p : String)
    (h : isAbsolutePosix cwd = true) :
    getAbsolutePathE ⟨cwd2, getAbsolutePathE ⟨cwd, p⟩⟩ = getAbsolutePathE ⟨cwd, p⟩ ∧
    (isAbsolutePosix p = true → getAbsolutePathE ⟨cwd, p⟩ = p) ∧
    (isAbsolutePosix p = false → getAbsolutePathE ⟨cwd, p⟩ = cwd ++ "/" ++ p) := by
  refine ⟨?_, ?_, ?_⟩
  · by_cases hp : isAbsolutePosix p = true
    · simp [getAbsolutePathE, hp]
    · have hp2 : isAbsolutePosix p = false := by
        cases hv : isAbsolutePosix p
        · rfl
        · exact absurd hv hp
      simp [getAbsolutePathE, hp2, isAbsolutePosix_append cwd p h]
  · intro hp
    simp [getAbsolutePathE, hp]
  · intro hp
    simp [getAbsolutePathE, hp]

theorem claimC9_witness :
    isAbsolutePosix "/x" = true ∧
    (getAbsolutePathE ⟨"/y", getAbsolutePathE ⟨"/x", "a"⟩⟩ = getAbsolutePathE ⟨"/x", "a"⟩ ∧
     (isAbsolutePosix "a" = true → getAbsolutePathE ⟨"/x", "a"⟩ = "a") ∧
     (isAbsolutePosix "a" = false → getAbsolutePathE ⟨"/x", "a"⟩ = "/x" ++ "/" ++ "a")) :=
  ⟨rfl, claimC9_absolute_path_idempotent "/x" "/y" "a" rfl⟩

/-- C10: for every path whose stat rejects with `NotFound`, the asynchronous
listings `getFiles` and `getList` do not produce the non-directory empty
result but reject with that same stat error, because `isDirectory` is queried
first and propagates it. -/
theorem claimC10_missing_path_rejects (mf : String → String → Bool) (f : FileH)
    (glob : Option String) (fs : FS) (q : String)
    (h : statE fs f.pathname = .error (.enoent q)) :
    getFilesE mf f glob fs = .error (.enoent q) ∧
    getListE mf f glob fs = .error (.enoent q) := by
  have hd : isDirectoryE f fs = .error (.enoent q) := by
    simp [isDirectoryE, checkAsyncStatsE, getStatsE, h]
  constructor
  · simp [getFilesE, hd]
  · simp [getListE, getFilesE, hd]

theorem claimC10_witness :
    statE fsC10 "/gone" = .error (.enoent "/gone") ∧
    (getFilesE (fun _ _ => false) ⟨"/", "/gone"⟩ none fsC10 = .error (.enoent "/gone") ∧
     getListE (fun _ _ => false) ⟨"/", "/gone"⟩ none fsC10 = .error (.enoent "/gone")) :=
  ⟨rfl, claimC10_missing_path_rejects (fun _ _ => false) ⟨"/", "/gone"⟩ none fsC10 "/gone" rfl⟩

end FileJs
